import Mathlib

/-!
Shallow embedding of the gesture-driven particle system:
the text rasterizer (`generateTextParticles`), the gesture interpreter
(the hand branch of `predictWebcam` in `App.tsx`), and the per-particle
physics and color update of `ParticleSystem`.

JS numbers are modelled exactly: rational arithmetic (`ℚ`) where the code
stays in field operations, real numbers (`ℝ`) where `Math.sqrt`,
`Math.sin`, `Math.cos` and `Math.PI` enter.
-/

namespace GestureF

/-! ## Text rasterizer (`generateTextParticles`) -/

/-- Source: `const scale = 0.15`. -/
def scaleFactor : ℚ := 0.15

/-- Source: `const index = (y * width + x) * 4` and `data[index + 3]`
(the alpha channel of pixel (x, y)). -/
def alphaIndex (width x y : ℕ) : ℕ := (y * width + x) * 4 + 3

/-- Source: the double loop `for (let y = 0; y < height; y += 2)` /
`for (let x = 0; x < width; x += 2)` collecting `{x, y}` whenever
`alpha > 128`.  The bitmap is abstracted as its dimensions plus the
`data` array viewed as a function from byte index to byte value. -/
def validPixels (width height : ℕ) (alpha : ℕ → ℕ) : List (ℕ × ℕ) :=
  (List.range' 0 ((height + 1) / 2) 2).flatMap (fun y =>
    (List.range' 0 ((width + 1) / 2) 2).filterMap (fun x =>
      if 128 < alpha (alphaIndex width x y) then some (x, y) else none))

/-- Source: `const x = (pixel.x - cx) * scale; const y = -(pixel.y - cy) * scale;
points.push(new THREE.Vector3(x, y, 0))` with `cx = width / 2`, `cy = height / 2`. -/
def toWorldPoint (width height : ℕ) (p : ℕ × ℕ) : ℚ × ℚ × ℚ :=
  let cx : ℚ := (width : ℚ) / 2
  let cy : ℚ := (height : ℚ) / 2
  (((p.1 : ℚ) - cx) * scaleFactor, -((p.2 : ℚ) - cy) * scaleFactor, 0)

/-- Source: `generateTextParticles` after the canvas has been measured and
drawn: `if (validPixels.length === 0) return []`, then
`for (let i = 0; i < particleCount; i++)` pushing the world-space image of
`validPixels[i % validPixels.length]`. -/
def generateTextParticles (width height : ℕ) (alpha : ℕ → ℕ)
    (particleCount : ℕ) : List (ℚ × ℚ × ℚ) :=
  let vp := validPixels width height alpha
  if vp.length = 0 then []
  else (List.range particleCount).map
    (fun i => toWorldPoint width height (vp.getD (i % vp.length) (0, 0)))

/-! ## Gesture interpreter (hand branch of `predictWebcam`) -/

/-- One MediaPipe landmark; only x and y are read by the interpreter. -/
structure Landmark where
  x : ℚ
  y : ℚ

/-- A hand pose sample: 21 landmarks indexed 0..20. -/
def Pose := Fin 21 → Landmark

/-- Source: `const isFingerUp = (tipIdx, pipIdx) => landmarks[tipIdx].y < landmarks[pipIdx].y`. -/
def isFingerUp (l : Pose) (tipIdx pipIdx : Fin 21) : Bool :=
  decide ((l tipIdx).y < (l pipIdx).y)

/-- Source: `indexUp = isFingerUp(8, 6)` etc., then `count` incremented for
index, middle, ring, pinky (thumb excluded). -/
def countExtended (l : Pose) : ℕ :=
  (if isFingerUp l 8 6 then 1 else 0) +
  (if isFingerUp l 12 10 then 1 else 0) +
  (if isFingerUp l 16 14 then 1 else 0) +
  (if isFingerUp l 20 18 then 1 else 0)

/-- Source: `if (count === 1) setTargetMode(1); else if (count === 2)
setTargetMode(2); else if (count >= 3) setTargetMode(3);` — on count 0 the
mode state is not written, so the previous mode persists. -/
def modeAfter (l : Pose) (prevMode : ℕ) : ℕ :=
  let count := countExtended l
  if count = 1 then 1
  else if count = 2 then 2
  else if 3 ≤ count then 3
  else prevMode

/-- Source: `const tips = [4, 8, 12, 16, 20]`. -/
def tipIndices : List (Fin 21) := [4, 8, 12, 16, 20]

/-- Source: `tips.forEach` accumulating `Math.sqrt(dx*dx + dy*dy)` from the
wrist (landmark 0), then `avgSpread = totalDist / 5`. -/
noncomputable def avgSpread (l : Pose) : ℝ :=
  let wrist := l 0
  let totalDist := (tipIndices.map (fun idx =>
    let dx : ℝ := ((l idx).x : ℝ) - (wrist.x : ℝ)
    let dy : ℝ := ((l idx).y : ℝ) - (wrist.y : ℝ)
    Real.sqrt (dx * dx + dy * dy))).sum
  totalDist / 5

/-- Source: `const spreadNorm = Math.min(Math.max((avgSpread - 0.15) * 4, 0), 1)`. -/
noncomputable def spreadNorm (l : Pose) : ℝ :=
  min (max ((avgSpread l - 0.15) * 4) 0) 1

/-- The control values `predictWebcam` publishes each processed frame:
`targetMode`, `dispersionFactor`, and whether any hand was detected
(`activeHandCount > 0`). -/
structure ControlState where
  mode : ℕ
  dispersion : ℝ
  handActive : Bool

/-- One gesture-interpretation tick.  Hand present: mode from the finger
count, dispersion from the spread.  No hand: `setActiveHandCount(0)`,
`setDispersionFactor(0.1)`, and `targetMode` is left untouched. -/
noncomputable def interpret (pose : Option Pose) (prevMode : ℕ) : ControlState :=
  match pose with
  | some l => ⟨modeAfter l prevMode, spreadNorm l, true⟩
  | none => ⟨prevMode, 0.1, false⟩

/-- Source: `const [targetMode, setTargetMode] = useState<number>(1)`. -/
def appInitialMode : ℕ := 1

/-- The mode after a sequence of gesture ticks starting from the app's
initial state. -/
noncomputable def runMode (ticks : List (Option Pose)) : ℕ :=
  ticks.foldl (fun m t => (interpret t m).mode) appInitialMode

/-! ## Particle simulator (`ParticleSystem`) -/

/-- Model of `THREE.Vector3` over exact reals. -/
structure Vec3 where
  x : ℝ
  y : ℝ
  z : ℝ

instance : Add Vec3 := ⟨fun a b => ⟨a.x + b.x, a.y + b.y, a.z + b.z⟩⟩

instance : Sub Vec3 := ⟨fun a b => ⟨a.x - b.x, a.y - b.y, a.z - b.z⟩⟩

instance : SMul ℝ Vec3 := ⟨fun c v => ⟨c * v.x, c * v.y, c * v.z⟩⟩

instance : Zero Vec3 := ⟨⟨0, 0, 0⟩⟩

/-- `THREE.Vector3.length()`: `Math.sqrt(x*x + y*y + z*z)`. -/
noncomputable def length (v : Vec3) : ℝ :=
  Real.sqrt (v.x * v.x + v.y * v.y + v.z * v.z)

open Classical in
/-- The `this.length() || 1` guard inside `THREE.Vector3.normalize`. -/
noncomputable def lengthOrOne (v : Vec3) : ℝ :=
  if length v = 0 then 1 else length v

/-- `THREE.Vector3.normalize()`: `divideScalar(length() || 1)`, and
`divideScalar(s)` multiplies by `1 / s`. -/
noncomputable def normalize (v : Vec3) : Vec3 :=
  (1 / lengthOrOne v) • v

/-- Source: `const PARTICLE_COUNT = 4000`. -/
def particleTotal : ℕ := 4000

/-- Source: the dispersion noise
`noiseX = Math.sin(i * 0.1 + time) * 10 * dispersion`,
`noiseY = Math.cos(i * 0.13 + time) * 10 * dispersion`,
`noiseZ = Math.sin(i * 0.15 + time) * 15 * dispersion`. -/
noncomputable def noiseOffset (i : ℕ) (time dispersion : ℝ) : Vec3 :=
  ⟨Real.sin ((i : ℝ) * 0.1 + time) * 10 * dispersion,
   Real.cos ((i : ℝ) * 0.13 + time) * 10 * dispersion,
   Real.sin ((i : ℝ) * 0.15 + time) * 15 * dispersion⟩

/-- Source: the idle branch — `radius = 10`,
`theta = (i / PARTICLE_COUNT) * Math.PI * 2 + time * 0.1`,
`phi = (i % 100) / 100 * Math.PI`, target
`(sin θ · r · sin φ, cos θ · r, cos φ · r · sin θ)`. -/
noncomputable def idleTarget (i : ℕ) (time : ℝ) : Vec3 :=
  let radius : ℝ := 10
  let theta : ℝ := ((i : ℝ) / (particleTotal : ℝ)) * Real.pi * 2 + time * 0.1
  let phi : ℝ := (((i % 100 : ℕ) : ℝ) / 100) * Real.pi
  ⟨Real.sin theta * radius * Real.sin phi,
   Real.cos theta * radius,
   Real.cos phi * radius * Real.sin theta⟩

open Classical in
/-- Step 1 of the per-particle tick: target resolution.
`if (hasHand && hasTargets)` take `currentTargets[i % currentTargets.length]`,
adding the noise offset when `dispersion > 0.1`; otherwise the idle
formation point. -/
noncomputable def resolveTarget (hasHand : Bool) (targetSet : List Vec3)
    (dispersion : ℝ) (i : ℕ) (time : ℝ) : Vec3 :=
  if hasHand ∧ 0 < targetSet.length then
    let targetPoint := targetSet.getD (i % targetSet.length) 0
    if dispersion > 0.1 then targetPoint + noiseOffset i time dispersion
    else targetPoint
  else idleTarget i time

/-- Step 2 of the per-particle tick: seek steering with arrival, damping,
and integration, exactly the source order:
`force = target − position`; `dist = force.length()`;
`maxSpeed = 0.5 + dispersion * 1.5`;
`force.normalize().multiplyScalar(Math.min(dist * 0.1, maxSpeed))`;
`velocity.add(force).multiplyScalar(0.92)`; `position.add(velocity)`. -/
noncomputable def physicsStep (pos vel target : Vec3) (dispersion : ℝ) :
    Vec3 × Vec3 :=
  let force := target - pos
  let dist := length force
  let maxSpeed : ℝ := 0.5 + dispersion * 1.5
  let forceScaled := min (dist * 0.1) maxSpeed • normalize force
  let newVel := (0.92 : ℝ) • (vel + forceScaled)
  let newPos := pos + newVel
  (newPos, newVel)

/-- RGB color with exact rational channels. -/
structure ColorRGB where
  r : ℚ
  g : ℚ
  b : ℚ

/-- Source: `new THREE.Color("#00ffff")`. -/
def color1 : ColorRGB := ⟨0, 1, 1⟩

/-- Source: `new THREE.Color("#ff00ff")`. -/
def color2 : ColorRGB := ⟨1, 0, 1⟩

/-- Source: `new THREE.Color("#ffff00")`. -/
def color3 : ColorRGB := ⟨1, 1, 0⟩

/-- Source: `new THREE.Color("#444444")` (0x44 = 68). -/
def colorIdle : ColorRGB := ⟨68 / 255, 68 / 255, 68 / 255⟩

/-- Source: `let targetColor = colorIdle; if (hasHand) { if (mode === 1) ...;
if (mode === 2) ...; if (mode === 3) ...; }`, as a chain of reassignments. -/
def targetColorOf (hasHand : Bool) (mode : ℕ) : ColorRGB :=
  let t0 := colorIdle
  if hasHand then
    let t1 := if mode = 1 then color1 else t0
    let t2 := if mode = 2 then color2 else t1
    if mode = 3 then color3 else t2
  else t0

/-- Source: `colors[rIndex] += (targetColor.r - colors[rIndex]) * 0.05`
(one channel of the per-tick color lerp). -/
def colorStep (channel targetChannel : ℚ) : ℚ :=
  channel + (targetChannel - channel) * 0.05

/-- The channel value after n ticks of `colorStep` against a fixed target. -/
def colorIter (targetChannel c0 : ℚ) : ℕ → ℚ
  | 0 => c0
  | n + 1 => colorStep (colorIter targetChannel c0 n) targetChannel

/-- Concrete run for the overshoot analysis: one particle starting at the
origin with zero velocity, fixed target (20, 0, 0), dispersion 0. -/
noncomputable def simC5 : ℕ → Vec3 × Vec3
  | 0 => (⟨0, 0, 0⟩, ⟨0, 0, 0⟩)
  | n + 1 => physicsStep (simC5 n).1 (simC5 n).2 ⟨20, 0, 0⟩ 0

/-- A pose with index and middle fingers up (tip above the PIP joint) and
ring and pinky down, used to exercise the mode-2 rule. -/
def twoFingerPose : Pose := fun i => ⟨0, if i.val = 8 ∨ i.val = 12 then 0 else 1⟩

/-- A degenerate pose with every landmark at the origin: no finger is up and
every wrist-to-tip distance is zero. -/
def zeroPose : Pose := fun _ => ⟨0, 0⟩

/-! ## Helper lemmas -/

theorem Vec3.add_def (a b : Vec3) :
    a + b = ⟨a.x + b.x, a.y + b.y, a.z + b.z⟩ := rfl

theorem Vec3.sub_def (a b : Vec3) :
    a - b = ⟨a.x - b.x, a.y - b.y, a.z - b.z⟩ := rfl

theorem Vec3.smul_def (c : ℝ) (v : Vec3) :
    c • v = ⟨c * v.x, c * v.y, c * v.z⟩ := rfl

theorem Vec3.zero_def : (0 : Vec3) = ⟨0, 0, 0⟩ := rfl

theorem length_nonneg (v : Vec3) : 0 ≤ length v := Real.sqrt_nonneg _

theorem length_eq_zero_iff (v : Vec3) : length v = 0 ↔ v = ⟨0, 0, 0⟩ := by
  unfold length
  rw [Real.sqrt_eq_zero (by nlinarith [sq_nonneg v.x, sq_nonneg v.y, sq_nonneg v.z])]
  constructor
  · intro h
    have hx : v.x = 0 := by nlinarith [sq_nonneg v.y, sq_nonneg v.z, sq_nonneg v.x]
    have hy : v.y = 0 := by nlinarith [sq_nonneg v.y, sq_nonneg v.z, sq_nonneg v.x]
    have hz : v.z = 0 := by nlinarith [sq_nonneg v.y, sq_nonneg v.z, sq_nonneg v.x]
    cases v
    simp_all
  · intro h
    rw [h]
    ring

theorem length_smul (c : ℝ) (v : Vec3) : length (c • v) = |c| * length v := by
  unfold length
  rw [Vec3.smul_def]
  have : c * v.x * (c * v.x) + c * v.y * (c * v.y) + c * v.z * (c * v.z)
      = (c * c) * (v.x * v.x + v.y * v.y + v.z * v.z) := by ring
  rw [this, Real.sqrt_mul (mul_self_nonneg c), Real.sqrt_mul_self_eq_abs]

theorem length_zero_vec : length ⟨0, 0, 0⟩ = 0 := by
  unfold length
  norm_num

theorem length_pos_of_ne {v : Vec3} (h : ¬ v = ⟨0, 0, 0⟩) : 0 < length v := by
  rcases lt_or_eq_of_le (length_nonneg v) with hlt | heq
  · exact hlt
  · exact absurd ((length_eq_zero_iff v).mp heq.symm) h

theorem lengthOrOne_of_pos {v : Vec3} (h : 0 < length v) : lengthOrOne v = length v := by
  unfold lengthOrOne
  rw [if_neg h.ne']

theorem normalize_zero_vec : normalize ⟨0, 0, 0⟩ = (⟨0, 0, 0⟩ : Vec3) := by
  unfold normalize
  rw [Vec3.smul_def]
  norm_num

theorem length_normalize {v : Vec3} (h : ¬ v = ⟨0, 0, 0⟩) :
    length (normalize v) = 1 := by
  have hlpos := length_pos_of_ne h
  unfold normalize
  rw [lengthOrOne_of_pos hlpos, length_smul, abs_of_pos (one_div_pos.mpr hlpos),
    one_div, inv_mul_cancel₀ hlpos.ne']

theorem Vec3.sub_eq_zero_iff (a b : Vec3) : a - b = ⟨0, 0, 0⟩ ↔ a = b := by
  cases a
  cases b
  rw [Vec3.sub_def]
  simp only [Vec3.mk.injEq]
  constructor
  · rintro ⟨h1, h2, h3⟩
    exact ⟨by linarith, by linarith, by linarith⟩
  · rintro ⟨h1, h2, h3⟩
    exact ⟨by linarith, by linarith, by linarith⟩

theorem Vec3.add_right_eq_self (a b : Vec3) : a + b = a ↔ b = ⟨0, 0, 0⟩ := by
  cases a
  cases b
  rw [Vec3.add_def]
  simp only [Vec3.mk.injEq]
  constructor
  · rintro ⟨h1, h2, h3⟩
    exact ⟨by linarith, by linarith, by linarith⟩
  · rintro ⟨h1, h2, h3⟩
    exact ⟨by linarith, by linarith, by linarith⟩

theorem Vec3.smul_mk_zero (c : ℝ) : c • (⟨0, 0, 0⟩ : Vec3) = ⟨0, 0, 0⟩ := by
  rw [Vec3.smul_def]
  norm_num

theorem Vec3.smul_eq_zero_iff {c : ℝ} (hc : c ≠ 0) (v : Vec3) :
    c • v = ⟨0, 0, 0⟩ ↔ v = ⟨0, 0, 0⟩ := by
  cases v
  rw [Vec3.smul_def]
  simp only [Vec3.mk.injEq, mul_eq_zero]
  tauto

theorem Vec3.add_mk_zero (a : Vec3) : a + ⟨0, 0, 0⟩ = a := by
  cases a
  rw [Vec3.add_def]
  norm_num

/-! ## Claims -/

/-- C1: with `M` the number of above-threshold sample pixels, whenever
`M > 0` the rasterizer returns exactly `particleCount` points and the i-th
point is `validPixels[i % M]` translated by the bitmap center, vertically
flipped, and scaled by 0.15 with z = 0; when `M = 0` it returns no points. -/
theorem C1_rasterize (width height particleCount : ℕ) (alpha : ℕ → ℕ)
    (hn : 0 < particleCount) :
    (0 < (validPixels width height alpha).length →
      (generateTextParticles width height alpha particleCount).length = particleCount ∧
      ∀ i, i < particleCount →
        (generateTextParticles width height alpha particleCount).getD i (0, 0, 0) =
          ((((validPixels width height alpha).getD
                (i % (validPixels width height alpha).length) (0, 0)).1 -
              (width : ℚ) / 2) * 0.15,
           -((((validPixels width height alpha).getD
                (i % (validPixels width height alpha).length) (0, 0)).2 : ℚ) -
              (height : ℚ) / 2) * 0.15,
           0)) ∧
    ((validPixels width height alpha).length = 0 →
      generateTextParticles width height alpha particleCount = []) := by
  constructor
  · intro hM
    have hne : ¬ (validPixels width height alpha).length = 0 := Nat.pos_iff_ne_zero.mp hM
    constructor
    · simp [generateTextParticles, hne]
    · intro i hi
      have h1 : generateTextParticles width height alpha particleCount =
          (List.range particleCount).map (fun j => toWorldPoint width height
            ((validPixels width height alpha).getD
              (j % (validPixels width height alpha).length) (0, 0))) := by
        simp [generateTextParticles, hne]
      rw [h1, List.getD_eq_getElem _ _ (by simpa using hi), List.getElem_map,
        List.getElem_range]
      simp [toWorldPoint, scaleFactor]
  · intro h0
    simp [generateTextParticles, h0]

/-- Witness for C1 on a concrete 4×4 fully opaque bitmap: the valid pixels
are [(0,0), (2,0), (0,2), (2,2)], so asking for 5 points wraps around and
point 4 is pixel (0,0) mapped to (-3/10, 3/10, 0). -/
theorem C1_rasterize_witness :
    (generateTextParticles 4 4 (fun _ => 255) 5).length = 5 ∧
    (generateTextParticles 4 4 (fun _ => 255) 5).getD 4 (0, 0, 0) =
      (-(3 / 10 : ℚ), (3 / 10 : ℚ), (0 : ℚ)) := by
  have hvp : validPixels 4 4 (fun _ => 255) = [(0, 0), (2, 0), (0, 2), (2, 2)] := by
    decide
  have hM : 0 < (validPixels 4 4 (fun _ => 255)).length := by rw [hvp]; decide
  have h := (C1_rasterize 4 4 5 (fun _ => 255) (by norm_num)).1 hM
  refine ⟨h.1, ?_⟩
  have h4 := h.2 4 (by norm_num)
  rw [h4, hvp]
  norm_num

/-- C7: on a tick with no hand-pose sample the interpreter reports
dispersion 0.1, handActive false, and leaves the mode unchanged; in
particular an absent pose after a mode-3 tick yields mode 3. -/
theorem C7_no_hand (prevMode : ℕ) :
    (interpret none prevMode).mode = prevMode ∧
    (interpret none prevMode).dispersion = 0.1 ∧
    (interpret none prevMode).handActive = false ∧
    interpret none 3 = ⟨3, 0.1, false⟩ :=
  ⟨rfl, rfl, rfl, rfl⟩

/-- C2: a finger among index/middle/ring/pinky is up iff its tip landmark's
y is strictly below (numerically less than) its PIP landmark's y, the thumb
is excluded; extendedCount 1 gives mode 1, 2 gives mode 2, 3 or 4 gives
mode 3, and 0 keeps the previous mode; a pose with index and middle up and
ring and pinky down yields mode 2 with the hand active. -/
theorem C2_mode_selection (l : Pose) (prev : ℕ) :
    (countExtended l =
      (if (l 8).y < (l 6).y then 1 else 0) +
      (if (l 12).y < (l 10).y then 1 else 0) +
      (if (l 16).y < (l 14).y then 1 else 0) +
      (if (l 20).y < (l 18).y then 1 else 0)) ∧
    ((interpret (some l) prev).handActive = true) ∧
    (countExtended l = 1 → (interpret (some l) prev).mode = 1) ∧
    (countExtended l = 2 → (interpret (some l) prev).mode = 2) ∧
    (countExtended l = 3 ∨ countExtended l = 4 → (interpret (some l) prev).mode = 3) ∧
    (countExtended l = 0 → (interpret (some l) prev).mode = prev) ∧
    ((l 8).y < (l 6).y → (l 12).y < (l 10).y → ¬(l 16).y < (l 14).y →
      ¬(l 20).y < (l 18).y → (interpret (some l) prev).mode = 2) := by
  refine ⟨by simp [countExtended, isFingerUp], rfl, ?_, ?_, ?_, ?_, ?_⟩
  · intro h
    simp [interpret, modeAfter, h]
  · intro h
    simp [interpret, modeAfter, h]
  · rintro (h | h) <;> simp [interpret, modeAfter, h]
  · intro h
    simp [interpret, modeAfter, h]
  · intro h8 h12 h16 h20
    have hc : countExtended l = 2 := by
      simp [countExtended, isFingerUp, h8, h12, h16, h20]
    simp [interpret, modeAfter, hc]

/-- Witness for C2: on the concrete two-finger pose (index and middle tips
above their PIP joints, ring and pinky not), the count is 2 and the
interpreter yields mode 2 with the hand active, regardless of starting
from previous mode 1. -/
theorem C2_mode_selection_witness :
    countExtended twoFingerPose = 2 ∧
    (interpret (some twoFingerPose) 1).mode = 2 ∧
    (interpret (some twoFingerPose) 1).handActive = true := by
  have hc : countExtended twoFingerPose = 2 := by decide
  exact ⟨hc, (C2_mode_selection twoFingerPose 1).2.2.2.1 hc,
    (C2_mode_selection twoFingerPose 1).2.1⟩

/-- C3: dispersion equals clamp((spread − 0.15)·4, 0, 1) where spread is the
average of the five wrist-to-fingertip distances; it always lies in [0,1],
is 0 whenever spread ≤ 0.15 and 1 whenever spread ≥ 0.4. -/
theorem C3_dispersion (l : Pose) :
    (avgSpread l =
      (Real.sqrt ((((l 4).x : ℝ) - ((l 0).x : ℝ)) * (((l 4).x : ℝ) - ((l 0).x : ℝ)) +
          (((l 4).y : ℝ) - ((l 0).y : ℝ)) * (((l 4).y : ℝ) - ((l 0).y : ℝ))) +
       Real.sqrt ((((l 8).x : ℝ) - ((l 0).x : ℝ)) * (((l 8).x : ℝ) - ((l 0).x : ℝ)) +
          (((l 8).y : ℝ) - ((l 0).y : ℝ)) * (((l 8).y : ℝ) - ((l 0).y : ℝ))) +
       Real.sqrt ((((l 12).x : ℝ) - ((l 0).x : ℝ)) * (((l 12).x : ℝ) - ((l 0).x : ℝ)) +
          (((l 12).y : ℝ) - ((l 0).y : ℝ)) * (((l 12).y : ℝ) - ((l 0).y : ℝ))) +
       Real.sqrt ((((l 16).x : ℝ) - ((l 0).x : ℝ)) * (((l 16).x : ℝ) - ((l 0).x : ℝ)) +
          (((l 16).y : ℝ) - ((l 0).y : ℝ)) * (((l 16).y : ℝ) - ((l 0).y : ℝ))) +
       Real.sqrt ((((l 20).x : ℝ) - ((l 0).x : ℝ)) * (((l 20).x : ℝ) - ((l 0).x : ℝ)) +
          (((l 20).y : ℝ) - ((l 0).y : ℝ)) * (((l 20).y : ℝ) - ((l 0).y : ℝ)))) / 5) ∧
    (spreadNorm l = min (max ((avgSpread l - 0.15) * 4) 0) 1) ∧
    (0 ≤ spreadNorm l) ∧
    (spreadNorm l ≤ 1) ∧
    (avgSpread l ≤ 0.15 → spreadNorm l = 0) ∧
    (0.4 ≤ avgSpread l → spreadNorm l = 1) := by
  refine ⟨?_, rfl, ?_, ?_, ?_, ?_⟩
  · simp [avgSpread, tipIndices]
    ring
  · exact le_min (le_max_right _ _) zero_le_one
  · exact min_le_right _ _
  · intro h
    unfold spreadNorm
    rw [max_eq_right (by nlinarith), min_eq_left zero_le_one]
  · intro h
    unfold spreadNorm
    rw [max_eq_left (by nlinarith), min_eq_right (by nlinarith)]

/-- Witness for C3 at the all-zero pose: every wrist-to-tip distance is 0,
so the spread is 0 ≤ 0.15 and the dispersion evaluates to 0. -/
theorem C3_dispersion_witness :
    avgSpread zeroPose ≤ 0.15 ∧ spreadNorm zeroPose = 0 := by
  have h0 : avgSpread zeroPose = 0 := by
    simp [avgSpread, tipIndices, zeroPose]
  have hle : avgSpread zeroPose ≤ 0.15 := by rw [h0]; norm_num
  exact ⟨hle, (C3_dispersion zeroPose).2.2.2.2.1 hle⟩

/-- C6 counterexample: the source initializes the mode with
`useState<number>(1)`, so before any hand is detected the simulator
consumes mode 1, not the claimed idle mode 0 — after zero ticks and after
two no-hand ticks the mode is 1. -/
theorem C6_counterexample :
    appInitialMode = 1 ∧ runMode [] = 1 ∧ runMode [none, none] = 1 ∧
    ¬ runMode [] = 0 := by
  refine ⟨rfl, rfl, ?_, by simp [runMode, appInitialMode]⟩
  simp [runMode, interpret, appInitialMode]

/-- C6 amended: the mode is always well-defined with default value 1 —
before any hand has been detected (every tick so far had no pose) the mode
consumed by the particle simulator is 1, a member of the mode set
{1, 2, 3}; the value 0 is never the default. -/
theorem C6_default_mode (ticks : List (Option Pose))
    (h : ∀ t ∈ ticks, t = none) :
    runMode ticks = 1 ∧ (runMode ticks = 1 ∨ runMode ticks = 2 ∨ runMode ticks = 3) := by
  have key : ∀ (ts : List (Option Pose)) (m : ℕ), (∀ t ∈ ts, t = none) →
      ts.foldl (fun m t => (interpret t m).mode) m = m := by
    intro ts
    induction ts with
    | nil => intro m _; rfl
    | cons hd tl ih =>
      intro m hall
      have hhd : hd = none := hall hd (by simp)
      have htl : ∀ t ∈ tl, t = none := fun t ht => hall t (by simp [ht])
      simp only [List.foldl_cons, hhd]
      exact ih m htl
  have h1 : runMode ticks = 1 := key ticks appInitialMode h
  exact ⟨h1, Or.inl h1⟩

/-- Witness for C6 amended: two no-hand ticks from startup leave the mode
at 1. -/
theorem C6_default_mode_witness :
    runMode [none, none] = 1 :=
  (C6_default_mode [none, none] (by simp)).1

/-- C10: the mode is in {1, 2, 3} after every run from the initial state;
a tick with a hand either keeps the mode or assigns a value in {1, 2, 3},
and any change requires at least one extended non-thumb finger; a fist
(count 0) and an absent hand keep the mode; the idle gray color is selected
exactly when the hand is inactive — mode 0 plays no role. -/
theorem C10_mode_invariant (ticks : List (Option Pose)) :
    (appInitialMode = 1) ∧
    (runMode ticks = 1 ∨ runMode ticks = 2 ∨ runMode ticks = 3) ∧
    (∀ l m, (interpret (some l) m).mode = m ∨
      (((interpret (some l) m).mode = 1 ∨ (interpret (some l) m).mode = 2 ∨
        (interpret (some l) m).mode = 3) ∧ 1 ≤ countExtended l)) ∧
    (∀ l m, countExtended l = 0 → (interpret (some l) m).mode = m) ∧
    (∀ m, (interpret none m).mode = m) ∧
    (∀ m, targetColorOf false m = colorIdle) ∧
    (targetColorOf true 1 ≠ colorIdle ∧ targetColorOf true 2 ≠ colorIdle ∧
      targetColorOf true 3 ≠ colorIdle) := by
  have hstep : ∀ l m, modeAfter l m = m ∨
      ((modeAfter l m = 1 ∨ modeAfter l m = 2 ∨ modeAfter l m = 3) ∧
        1 ≤ countExtended l) := by
    intro l m
    simp only [modeAfter]
    split_ifs with h1 h2 h3
    · exact Or.inr ⟨Or.inl rfl, by omega⟩
    · exact Or.inr ⟨Or.inr (Or.inl rfl), by omega⟩
    · exact Or.inr ⟨Or.inr (Or.inr rfl), by omega⟩
    · exact Or.inl rfl
  refine ⟨rfl, ?_, ?_, ?_, fun m => rfl, fun m => rfl, ?_⟩
  · have key : ∀ (ts : List (Option Pose)) (m : ℕ), (m = 1 ∨ m = 2 ∨ m = 3) →
        (ts.foldl (fun m t => (interpret t m).mode) m = 1 ∨
         ts.foldl (fun m t => (interpret t m).mode) m = 2 ∨
         ts.foldl (fun m t => (interpret t m).mode) m = 3) := by
      intro ts
      induction ts with
      | nil => intro m hm; simpa using hm
      | cons hd tl ih =>
        intro m hm
        simp only [List.foldl_cons]
        apply ih
        match hd with
        | none => exact hm
        | some l =>
          rcases hstep l m with h | h
          · simpa [interpret, h] using hm
          · simpa [interpret] using h.1
    exact key ticks appInitialMode (Or.inl rfl)
  · intro l m
    exact hstep l m
  · intro l m h0
    simp [interpret, modeAfter, h0]
  · refine ⟨?_, ?_, ?_⟩ <;>
      · simp only [targetColorOf, color1, color2, color3, colorIdle]
        norm_num [ColorRGB.mk.injEq]

/-- Witness for C10: the empty run has mode in {1, 2, 3}; an absent hand
keeps mode 2; the zero pose (a fist, count 0) keeps mode 3. -/
theorem C10_mode_invariant_witness :
    (runMode [] = 1 ∨ runMode [] = 2 ∨ runMode [] = 3) ∧
    (interpret none 2).mode = 2 ∧
    (interpret (some zeroPose) 3).mode = 3 :=
  ⟨(C10_mode_invariant []).2.1, (C10_mode_invariant []).2.2.2.2.1 2,
    (C10_mode_invariant []).2.2.2.1 zeroPose 3 (by decide)⟩

/-- C4: the per-tick physics computes force = target − position,
dist = |force|, maxSpeed = 0.5 + 1.5·dispersion, rescales the force to the
direction of target − position with magnitude min(dist·0.1, maxSpeed),
then sets velocity to (velocity + force)·0.92 and position to
position + velocity, in that order. -/
theorem C4_physics_order (pos vel target : Vec3) (dispersion : ℝ) :
    (physicsStep pos vel target dispersion =
      (pos + (0.92 : ℝ) • (vel +
          min (length (target - pos) * 0.1) (0.5 + dispersion * 1.5) •
            normalize (target - pos)),
       (0.92 : ℝ) • (vel +
          min (length (target - pos) * 0.1) (0.5 + dispersion * 1.5) •
            normalize (target - pos)))) ∧
    (0 ≤ dispersion →
      length (min (length (target - pos) * 0.1) (0.5 + dispersion * 1.5) •
          normalize (target - pos)) =
        min (length (target - pos) * 0.1) (0.5 + dispersion * 1.5)) ∧
    (¬ target - pos = ⟨0, 0, 0⟩ →
      normalize (target - pos) =
        (1 / length (target - pos)) • (target - pos)) := by
  refine ⟨rfl, ?_, ?_⟩
  · intro hd
    by_cases h0 : target - pos = ⟨0, 0, 0⟩
    · rw [h0]
      have hl : length ⟨0, 0, 0⟩ = 0 := by
        unfold length
        norm_num
      have hn : normalize ⟨0, 0, 0⟩ = (⟨0, 0, 0⟩ : Vec3) := by
        unfold normalize
        rw [Vec3.smul_def]
        norm_num
      rw [hl, hn, Vec3.smul_def]
      simp only [mul_zero]
      rw [hl, zero_mul, min_eq_left (by linarith)]
    · have hlpos : 0 < length (target - pos) := by
        rcases lt_or_eq_of_le (length_nonneg (target - pos)) with h | h
        · exact h
        · exact absurd ((length_eq_zero_iff _).mp h.symm) h0
      have hLOO : lengthOrOne (target - pos) = length (target - pos) := by
        unfold lengthOrOne
        rw [if_neg hlpos.ne']
      have hnorm : length (normalize (target - pos)) = 1 := by
        unfold normalize
        rw [hLOO, length_smul, abs_of_pos (one_div_pos.mpr hlpos), one_div,
          inv_mul_cancel₀ (ne_of_gt hlpos)]
      rw [length_smul, hnorm, mul_one, abs_of_nonneg]
      exact le_min (by positivity) (by linarith)
  · intro h0
    unfold normalize lengthOrOne
    rw [if_neg (fun h => h0 ((length_eq_zero_iff _).mp h))]

/-- Witness for C4 at concrete inputs: dispersion 1/2 is nonnegative and the
target (3, 4, 0) differs from the origin position, so the scaled force has
magnitude min(5·0.1, 0.5 + 0.75) = 0.5 and the direction is the unit vector
toward the target. -/
theorem C4_physics_order_witness :
    length (min (length ((⟨3, 4, 0⟩ : Vec3) - ⟨0, 0, 0⟩) * 0.1)
        (0.5 + (1 / 2 : ℝ) * 1.5) • normalize ((⟨3, 4, 0⟩ : Vec3) - ⟨0, 0, 0⟩)) =
      min (length ((⟨3, 4, 0⟩ : Vec3) - ⟨0, 0, 0⟩) * 0.1) (0.5 + (1 / 2 : ℝ) * 1.5) ∧
    normalize ((⟨3, 4, 0⟩ : Vec3) - ⟨0, 0, 0⟩) =
      (1 / length ((⟨3, 4, 0⟩ : Vec3) - ⟨0, 0, 0⟩)) • ((⟨3, 4, 0⟩ : Vec3) - ⟨0, 0, 0⟩) := by
  have h := C4_physics_order (⟨0, 0, 0⟩ : Vec3) ⟨0, 0, 0⟩ ⟨3, 4, 0⟩ (1 / 2)
  refine ⟨h.2.1 (by norm_num), h.2.2 ?_⟩
  rw [Vec3.sub_def, Vec3.mk.injEq]
  norm_num

/-- C9: each color channel is updated by channel += (target − channel)·0.05;
channels in [0,1] with a target in [0,1] stay in [0,1]; against a fixed
target the channel moves monotonically toward the target, the gap shrinking
by the factor 19/20 every tick. -/
theorem C9_color_blend (c t : ℚ) :
    (colorStep c t = c + (t - c) * 0.05) ∧
    (0 ≤ c → c ≤ 1 → 0 ≤ t → t ≤ 1 → 0 ≤ colorStep c t ∧ colorStep c t ≤ 1) ∧
    (∀ n, |t - colorIter t c (n + 1)| = (19 / 20) * |t - colorIter t c n|) ∧
    (∀ n, c ≤ t → colorIter t c n ≤ colorIter t c (n + 1) ∧ colorIter t c n ≤ t) ∧
    (∀ n, t ≤ c → colorIter t c (n + 1) ≤ colorIter t c n ∧ t ≤ colorIter t c n) := by
  have hstep : ∀ x, colorStep x t = x + (t - x) * (1 / 20) := by
    intro x
    unfold colorStep
    norm_num
  have hle : ∀ n, c ≤ t → colorIter t c n ≤ t := by
    intro n hct
    induction n with
    | zero => exact hct
    | succ k ih =>
      show colorStep (colorIter t c k) t ≤ t
      rw [hstep]
      linarith
  have hge : ∀ n, t ≤ c → t ≤ colorIter t c n := by
    intro n hct
    induction n with
    | zero => exact hct
    | succ k ih =>
      show t ≤ colorStep (colorIter t c k) t
      rw [hstep]
      linarith
  refine ⟨rfl, ?_, ?_, ?_, ?_⟩
  · intro h1 h2 h3 h4
    rw [hstep]
    constructor <;> linarith
  · intro n
    have : t - colorIter t c (n + 1) = (19 / 20) * (t - colorIter t c n) := by
      show t - colorStep (colorIter t c n) t = _
      rw [hstep]
      ring
    rw [this, abs_mul, abs_of_pos (by norm_num)]
  · intro n hct
    refine ⟨?_, hle n hct⟩
    show colorIter t c n ≤ colorStep (colorIter t c n) t
    rw [hstep]
    have := hle n hct
    linarith
  · intro n hct
    refine ⟨?_, hge n hct⟩
    show colorStep (colorIter t c n) t ≤ colorIter t c n
    rw [hstep]
    have := hge n hct
    linarith

/-- Witness for C9 at channel 0, target 1: one tick gives 1/20, which stays
in [0,1], is at least the previous value, and the gap contracts to 19/20. -/
theorem C9_color_blend_witness :
    (0 ≤ colorStep 0 1 ∧ colorStep 0 1 ≤ 1) ∧
    (colorIter 1 0 0 ≤ colorIter 1 0 1 ∧ colorIter 1 0 0 ≤ 1) ∧
    |1 - colorIter 1 0 1| = (19 / 20) * |1 - colorIter 1 0 0| := by
  have h := C9_color_blend 0 1
  exact ⟨h.2.1 (by norm_num) (by norm_num) (by norm_num) (by norm_num),
    h.2.2.2.1 0 (by norm_num), h.2.2.1 0⟩

/-- C8: with dispersion 0, an active hand and a non-empty target set, the
resolved target is exactly `targetSet[i % length]` with no noise offset,
and the per-particle step has that point with zero velocity as its unique
steady state. -/
theorem C8_steady_state (targetSet : List Vec3) (i : ℕ) (time : ℝ) (p v : Vec3)
    (h : 0 < targetSet.length) :
    (resolveTarget true targetSet 0 i time =
      targetSet.getD (i % targetSet.length) 0) ∧
    (physicsStep p v (targetSet.getD (i % targetSet.length) 0) 0 = (p, v) ↔
      p = targetSet.getD (i % targetSet.length) 0 ∧ v = ⟨0, 0, 0⟩) := by
  constructor
  · unfold resolveTarget
    rw [if_pos ⟨rfl, h⟩, if_neg (by norm_num)]
  · set tgt := targetSet.getD (i % targetSet.length) 0 with htgt
    constructor
    · intro hfix
      simp only [physicsStep, Prod.mk.injEq] at hfix
      obtain ⟨hp, hv⟩ := hfix
      have hw : (0.92 : ℝ) • (v + min (length (tgt - p) * 0.1) (0.5 + 0 * 1.5) •
          normalize (tgt - p)) = ⟨0, 0, 0⟩ := (Vec3.add_right_eq_self _ _).mp hp
      have hv0 : v = ⟨0, 0, 0⟩ := hv.symm.trans hw
      have hsum : v + min (length (tgt - p) * 0.1) (0.5 + 0 * 1.5) •
          normalize (tgt - p) = ⟨0, 0, 0⟩ :=
        (Vec3.smul_eq_zero_iff (by norm_num) _).mp hw
      rw [hv0] at hsum
      have hms : min (length (tgt - p) * 0.1) (0.5 + 0 * 1.5) •
          normalize (tgt - p) = ⟨0, 0, 0⟩ := by
        cases hmsv : min (length (tgt - p) * 0.1) (0.5 + 0 * 1.5) •
            normalize (tgt - p)
        rw [hmsv] at hsum
        rw [Vec3.add_def] at hsum
        simp only [Vec3.mk.injEq] at hsum ⊢
        constructor
        · linarith [hsum.1]
        constructor
        · linarith [hsum.2.1]
        · linarith [hsum.2.2]
      refine ⟨?_, hv0⟩
      by_contra hne
      have hfne : ¬ tgt - p = ⟨0, 0, 0⟩ := by
        intro hz
        exact hne ((Vec3.sub_eq_zero_iff tgt p).mp hz).symm
      have hdist : 0 < length (tgt - p) := length_pos_of_ne hfne
      have hmpos : 0 < min (length (tgt - p) * 0.1) (0.5 + 0 * 1.5) :=
        lt_min (by positivity) (by norm_num)
      have hlen : length (min (length (tgt - p) * 0.1) (0.5 + 0 * 1.5) •
          normalize (tgt - p)) = min (length (tgt - p) * 0.1) (0.5 + 0 * 1.5) := by
        rw [length_smul, length_normalize hfne, mul_one, abs_of_pos hmpos]
      rw [hms, length_zero_vec] at hlen
      exact absurd hlen.symm hmpos.ne'
    · rintro ⟨hp, hv⟩
      subst hp
      subst hv
      have hsub : tgt - tgt = (⟨0, 0, 0⟩ : Vec3) := (Vec3.sub_eq_zero_iff tgt tgt).mpr rfl
      simp only [physicsStep, hsub, length_zero_vec, normalize_zero_vec,
        Vec3.smul_mk_zero, Vec3.add_mk_zero, Prod.mk.injEq]

theorem stepToward (p v : ℝ) (h : p < 20) :
    physicsStep ⟨p, 0, 0⟩ ⟨v, 0, 0⟩ ⟨20, 0, 0⟩ 0 =
      (⟨p + 0.92 * (v + min ((20 - p) * 0.1) 0.5), 0, 0⟩,
       ⟨0.92 * (v + min ((20 - p) * 0.1) 0.5), 0, 0⟩) := by
  have hpos : (0 : ℝ) < 20 - p := by linarith
  have hsub : (⟨20, 0, 0⟩ : Vec3) - ⟨p, 0, 0⟩ = ⟨20 - p, 0, 0⟩ := by
    rw [Vec3.sub_def]
    norm_num
  have hlen : length ⟨20 - p, 0, 0⟩ = 20 - p := by
    unfold length
    rw [show (20 - p) * (20 - p) + 0 * 0 + 0 * 0 = (20 - p) * (20 - p) by ring,
      Real.sqrt_mul_self hpos.le]
  have hnorm : normalize ⟨20 - p, 0, 0⟩ = (⟨1, 0, 0⟩ : Vec3) := by
    unfold normalize
    rw [lengthOrOne_of_pos (by rw [hlen]; exact hpos), hlen, Vec3.smul_def,
      Vec3.mk.injEq]
    refine ⟨?_, by ring, by ring⟩
    field_simp
  have hms : (0.5 : ℝ) + 0 * 1.5 = 0.5 := by norm_num
  simp only [physicsStep, hsub, hlen, hnorm, hms, Vec3.smul_def, Vec3.add_def,
    mul_one, mul_zero, add_zero, zero_add]

theorem stepBeyond (p v : ℝ) (h : 20 < p) :
    physicsStep ⟨p, 0, 0⟩ ⟨v, 0, 0⟩ ⟨20, 0, 0⟩ 0 =
      (⟨p + 0.92 * (v - min ((p - 20) * 0.1) 0.5), 0, 0⟩,
       ⟨0.92 * (v - min ((p - 20) * 0.1) 0.5), 0, 0⟩) := by
  have hpos : (0 : ℝ) < p - 20 := by linarith
  have hsub : (⟨20, 0, 0⟩ : Vec3) - ⟨p, 0, 0⟩ = ⟨20 - p, 0, 0⟩ := by
    rw [Vec3.sub_def]
    norm_num
  have hlen : length ⟨20 - p, 0, 0⟩ = p - 20 := by
    unfold length
    rw [show (20 - p) * (20 - p) + 0 * 0 + 0 * 0 = (p - 20) * (p - 20) by ring,
      Real.sqrt_mul_self hpos.le]
  have hnorm : normalize ⟨20 - p, 0, 0⟩ = (⟨-1, 0, 0⟩ : Vec3) := by
    unfold normalize
    rw [lengthOrOne_of_pos (by rw [hlen]; exact hpos), hlen, Vec3.smul_def,
      Vec3.mk.injEq]
    refine ⟨?_, by ring, by ring⟩
    field_simp
  have hms : (0.5 : ℝ) + 0 * 1.5 = 0.5 := by norm_num
  simp only [physicsStep, hsub, hlen, hnorm, hms, Vec3.smul_def, Vec3.add_def,
    mul_neg_one, mul_zero, add_zero, zero_add, ← sub_eq_add_neg]

/-- Witness for C8: target set [(1, 2, 0)], particle 3 at exactly the target
with zero velocity — the resolved target is (1, 2, 0) and the physics step
leaves the particle in place. -/
theorem C8_steady_state_witness :
    resolveTarget true [⟨1, 2, 0⟩] 0 3 7 = ⟨1, 2, 0⟩ ∧
    physicsStep ⟨1, 2, 0⟩ ⟨0, 0, 0⟩ ⟨1, 2, 0⟩ 0 = (⟨1, 2, 0⟩, ⟨0, 0, 0⟩) := by
  have h := C8_steady_state [⟨1, 2, 0⟩] 3 7 ⟨1, 2, 0⟩ ⟨0, 0, 0⟩ (by norm_num)
  have hg : ([⟨1, 2, 0⟩] : List Vec3).getD (3 % ([⟨1, 2, 0⟩] : List Vec3).length) 0 =
      (⟨1, 2, 0⟩ : Vec3) := rfl
  refine ⟨h.1.trans hg, ?_⟩
  have h2 := h.2.mpr ⟨hg.symm, rfl⟩
  rw [hg] at h2
  exact h2


/-- Evaluation of the concrete run `simC5` (start at the origin, zero
velocity, target (20, 0, 0), dispersion 0) at ticks 11 and 12, by exact
rational arithmetic: at tick 11 the particle has already crossed the target
(x ≈ 22.77) and at tick 12 it is x ≈ 25.13. -/
theorem simC5_eval :
    simC5 11 = ((⟨10858227659573034287/476837158203125000, 0, 0⟩ : Vec3), (⟨1355319486019611537/476837158203125000, 0, 0⟩ : Vec3)) ∧
    simC5 12 = ((⟨2995886253281026936659/119209289550781250000, 0, 0⟩ : Vec3), (⟨281329338387768364909/119209289550781250000, 0, 0⟩ : Vec3)) := by
  have e0 : simC5 0 = (⟨0, 0, 0⟩, ⟨0, 0, 0⟩) := rfl
  have e1 : simC5 1 = ((⟨23/50, 0, 0⟩ : Vec3), (⟨23/50, 0, 0⟩ : Vec3)) := by
    have h : simC5 1 = physicsStep (simC5 0).1 (simC5 0).2 ⟨20, 0, 0⟩ 0 := rfl
    rw [h, e0]
    dsimp only
    rw [stepToward _ _ (by norm_num)]
    norm_num [Prod.ext_iff, Vec3.mk.injEq, min_def]
  have e2 : simC5 2 = ((⟨1679/1250, 0, 0⟩ : Vec3), (⟨552/625, 0, 0⟩ : Vec3)) := by
    have h : simC5 2 = physicsStep (simC5 1).1 (simC5 1).2 ⟨20, 0, 0⟩ 0 := rfl
    rw [h, e1]
    dsimp only
    rw [stepToward _ _ (by norm_num)]
    norm_num [Prod.ext_iff, Vec3.mk.injEq, min_def]
  have e3 : simC5 3 = ((⟨40871/15625, 0, 0⟩ : Vec3), (⟨39767/31250, 0, 0⟩ : Vec3)) := by
    have h : simC5 3 = physicsStep (simC5 2).1 (simC5 2).2 ⟨20, 0, 0⟩ 0 := rfl
    rw [h, e2]
    dsimp only
    rw [stepToward _ _ (by norm_num)]
    norm_num [Prod.ext_iff, Vec3.mk.injEq, min_def]
  have e4 : simC5 4 = ((⟨1658783/390625, 0, 0⟩ : Vec3), (⟨637008/390625, 0, 0⟩ : Vec3)) := by
    have h : simC5 4 = physicsStep (simC5 3).1 (simC5 3).2 ⟨20, 0, 0⟩ 0 := rfl
    rw [h, e3]
    dsimp only
    rw [stepToward _ _ (by norm_num)]
    norm_num [Prod.ext_iff, Vec3.mk.injEq, min_def]
  have e5 : simC5 5 = ((⟨121225893/19531250, 0, 0⟩ : Vec3), (⟨38286743/19531250, 0, 0⟩ : Vec3)) := by
    have h : simC5 5 = physicsStep (simC5 4).1 (simC5 4).2 ⟨20, 0, 0⟩ 0 := rfl
    rw [h, e4]
    dsimp only
    rw [stepToward _ _ (by norm_num)]
    norm_num [Prod.ext_iff, Vec3.mk.injEq, min_def]
  have e6 : simC5 6 = ((⟨4135851789/488281250, 0, 0⟩ : Vec3), (⟨552602232/244140625, 0, 0⟩ : Vec3)) := by
    have h : simC5 6 = physicsStep (simC5 5).1 (simC5 5).2 ⟨20, 0, 0⟩ 0 := rfl
    rw [h, e5]
    dsimp only
    rw [stepToward _ _ (by norm_num)]
    norm_num [Prod.ext_iff, Vec3.mk.injEq, min_def]
  have e7 : simC5 7 = ((⟨67215615886/6103515625, 0, 0⟩ : Vec3), (⟨31034937047/12207031250, 0, 0⟩ : Vec3)) := by
    have h : simC5 7 = physicsStep (simC5 6).1 (simC5 6).2 ⟨20, 0, 0⟩ 0 := rfl
    rw [h, e6]
    dsimp only
    rw [stepToward _ _ (by norm_num)]
    norm_num [Prod.ext_iff, Vec3.mk.injEq, min_def]
  have e8 : simC5 8 = ((⟨2107482602878/152587890625, 0, 0⟩ : Vec3), (⟨427092205728/152587890625, 0, 0⟩ : Vec3)) := by
    have h : simC5 8 = physicsStep (simC5 7).1 (simC5 7).2 ⟨20, 0, 0⟩ 0 := rfl
    rw [h, e7]
    dsimp only
    rw [stepToward _ _ (by norm_num)]
    norm_num [Prod.ext_iff, Vec3.mk.injEq, min_def]
  have e9 : simC5 9 = ((⟨128529893091763/7629394531250, 0, 0⟩ : Vec3), (⟨23155762947863/7629394531250, 0, 0⟩ : Vec3)) := by
    have h : simC5 9 = physicsStep (simC5 8).1 (simC5 8).2 ⟨20, 0, 0⟩ 0 := rfl
    rw [h, e8]
    dsimp only
    rw [stepToward _ _ (by norm_num)]
    norm_num [Prod.ext_iff, Vec3.mk.injEq, min_def]
  have e10 : simC5 10 = ((⟨38011632694213691/1907348632812500, 0, 0⟩ : Vec3), (⟨5879159421272941/1907348632812500, 0, 0⟩ : Vec3)) := by
    have h : simC5 10 = physicsStep (simC5 9).1 (simC5 9).2 ⟨20, 0, 0⟩ 0 := rfl
    rw [h, e9]
    dsimp only
    rw [stepToward _ _ (by norm_num)]
    norm_num [Prod.ext_iff, Vec3.mk.injEq, min_def]
  have e11 : simC5 11 = ((⟨10858227659573034287/476837158203125000, 0, 0⟩ : Vec3), (⟨1355319486019611537/476837158203125000, 0, 0⟩ : Vec3)) := by
    have h : simC5 11 = physicsStep (simC5 10).1 (simC5 10).2 ⟨20, 0, 0⟩ 0 := rfl
    rw [h, e10]
    dsimp only
    rw [stepToward _ _ (by norm_num)]
    norm_num [Prod.ext_iff, Vec3.mk.injEq, min_def]
  have e12 : simC5 12 = ((⟨2995886253281026936659/119209289550781250000, 0, 0⟩ : Vec3), (⟨281329338387768364909/119209289550781250000, 0, 0⟩ : Vec3)) := by
    have h : simC5 12 = physicsStep (simC5 11).1 (simC5 11).2 ⟨20, 0, 0⟩ 0 := rfl
    rw [h, e11]
    dsimp only
    rw [stepBeyond _ _ (by norm_num)]
    norm_num [Prod.ext_iff, Vec3.mk.injEq, min_def]
  exact ⟨e11, e12⟩

/-- C5 counterexample: a particle started at the origin with zero velocity
and steered toward the fixed target (20, 0, 0) at dispersion 0 (per-tick
speed cap maxSpeed = 0.5 + 0·1.5 = 0.5) crosses the target and at tick 12
sits more than 4.5 world units beyond the cap past it, and its distance to
the target grows from tick 11 (≈ 2.77) to tick 12 (≈ 5.13) even though it
is more than 2 units away — so the distance does not strictly decrease
until within a small epsilon, and the overshoot exceeds the speed cap. -/
theorem C5_overshoot_counterexample :
    (simC5 0).1.x < 20 ∧
    20 + (0.5 + 0 * 1.5) + 4 < (simC5 12).1.x ∧
    length ((simC5 11).1 - ⟨20, 0, 0⟩) + 2 < length ((simC5 12).1 - ⟨20, 0, 0⟩) ∧
    2 < length ((simC5 11).1 - ⟨20, 0, 0⟩) := by
  obtain ⟨e11, e12⟩ := simC5_eval
  have hL : ∀ a : ℝ, 0 ≤ a → length ⟨a, 0, 0⟩ = a := by
    intro a ha
    unfold length
    rw [show a * a + 0 * 0 + 0 * 0 = a * a by ring, Real.sqrt_mul_self ha]
  have d11 : (simC5 11).1 - ⟨20, 0, 0⟩ =
      ⟨1321484495510534287 / 476837158203125000, 0, 0⟩ := by
    rw [e11]
    dsimp only
    rw [Vec3.sub_def]
    norm_num [Vec3.mk.injEq]
  have d12 : (simC5 12).1 - ⟨20, 0, 0⟩ =
      ⟨611700462265401936659 / 119209289550781250000, 0, 0⟩ := by
    rw [e12]
    dsimp only
    rw [Vec3.sub_def]
    norm_num [Vec3.mk.injEq]
  refine ⟨by norm_num [show (simC5 0).1.x = (0 : ℝ) from rfl], ?_, ?_, ?_⟩
  · rw [e12]
    dsimp only
    norm_num
  · rw [d11, d12, hL _ (by norm_num), hL _ (by norm_num)]
    norm_num
  · rw [d11, hL _ (by norm_num)]
    norm_num

/-- C5 amended: from zero velocity the first tick strictly decreases the
distance to the target (for any nonnegative dispersion, whenever the
particle is not already at the target); on later ticks, with accumulated
velocity, the distance need not decrease and the particle can overshoot by
more than the per-tick speed cap. -/
theorem C5_first_tick_approach (pos target : Vec3) (dispersion : ℝ)
    (hd : 0 ≤ dispersion) (hne : ¬ pos = target) :
    length ((physicsStep pos ⟨0, 0, 0⟩ target dispersion).1 - target) <
      length (pos - target) := by
  have hfne : ¬ target - pos = ⟨0, 0, 0⟩ := fun hz =>
    hne ((Vec3.sub_eq_zero_iff target pos).mp hz).symm
  have hfne2 : ¬ pos - target = ⟨0, 0, 0⟩ := fun hz =>
    hne ((Vec3.sub_eq_zero_iff pos target).mp hz)
  have hdist : 0 < length (target - pos) := length_pos_of_ne hfne
  have hdist2 : 0 < length (pos - target) := length_pos_of_ne hfne2
  have hmpos : 0 < min (length (target - pos) * 0.1) (0.5 + dispersion * 1.5) :=
    lt_min (by positivity) (by linarith)
  have hKpos : 0 < 0.92 * (min (length (target - pos) * 0.1)
      (0.5 + dispersion * 1.5) * (1 / length (target - pos))) :=
    mul_pos (by norm_num) (mul_pos hmpos (by positivity))
  have hKle : 0.92 * (min (length (target - pos) * 0.1)
      (0.5 + dispersion * 1.5) * (1 / length (target - pos))) ≤ 0.092 := by
    have h1 : min (length (target - pos) * 0.1) (0.5 + dispersion * 1.5) *
        (1 / length (target - pos)) ≤
        (length (target - pos) * 0.1) * (1 / length (target - pos)) :=
      mul_le_mul_of_nonneg_right (min_le_left _ _) (by positivity)
    have h2 : (length (target - pos) * 0.1) * (1 / length (target - pos)) = 0.1 := by
      field_simp
    nlinarith
  have key : (physicsStep pos ⟨0, 0, 0⟩ target dispersion).1 - target =
      (1 - 0.92 * (min (length (target - pos) * 0.1) (0.5 + dispersion * 1.5) *
        (1 / length (target - pos)))) • (pos - target) := by
    simp only [physicsStep]
    unfold normalize
    rw [lengthOrOne_of_pos hdist]
    cases pos
    cases target
    simp only [Vec3.sub_def, Vec3.add_def, Vec3.smul_def, Vec3.mk.injEq]
    refine ⟨by ring, by ring, by ring⟩
  rw [key, length_smul, abs_of_pos (by linarith)]
  nlinarith

/-- Witness for C5 amended, at the concrete start of the overshoot run: one
tick from the origin with zero velocity toward (20, 0, 0) at dispersion 0
strictly decreases the distance to the target. -/
theorem C5_first_tick_approach_witness :
    length ((physicsStep ⟨0, 0, 0⟩ ⟨0, 0, 0⟩ ⟨20, 0, 0⟩ 0).1 - ⟨20, 0, 0⟩) <
      length ((⟨0, 0, 0⟩ : Vec3) - ⟨20, 0, 0⟩) :=
  C5_first_tick_approach ⟨0, 0, 0⟩ ⟨20, 0, 0⟩ 0 le_rfl
    (by rw [Vec3.mk.injEq]; norm_num)

end GestureF
